import Mathlib

/-!
Verification of the trading-assistant backend (`backend/server.py`).

Numbers are modelled as rationals (`ℚ`).  Python's `round(x, 2)` rounds to
the nearest multiple of 1/100 with ties going to the even multiple
(banker's rounding); `rhe` below is that integer rounding and `round2`
the two-decimal version.  Fallible operations (code paths that raise in
Python) are modelled with `Option`.
-/

namespace Trading

/-- Round half to even: the integer nearest to `x`, ties to the even integer. -/
def rhe (x : ℚ) : ℤ :=
  if x - ⌊x⌋ < 1/2 then ⌊x⌋
  else if 1/2 < x - ⌊x⌋ then ⌊x⌋ + 1
  else if ⌊x⌋ % 2 = 0 then ⌊x⌋ else ⌊x⌋ + 1

/-- Python's `round(x, 2)`: round to two decimal places, ties to even. -/
def round2 (x : ℚ) : ℚ := (rhe (100 * x) : ℚ) / 100

theorem rhe_le (x : ℚ) : (rhe x : ℚ) ≤ x + 1/2 := by
  unfold rhe
  have hfl : (⌊x⌋ : ℚ) ≤ x := Int.floor_le x
  split
  · linarith
  · split
    · push_cast
      rename_i h1 h2
      linarith
    · split
      · rename_i h1 h2 h3
        linarith
      · push_cast
        rename_i h1 h2 h3
        linarith

theorem le_rhe (x : ℚ) : x - 1/2 ≤ (rhe x : ℚ) := by
  unfold rhe
  have hfl : x < ⌊x⌋ + 1 := Int.lt_floor_add_one x
  split
  · rename_i h1
    linarith
  · split
    · push_cast
      linarith
    · split
      · rename_i h1 h2 h3
        linarith
      · push_cast
        rename_i h1 h2 h3
        linarith

theorem round2_le (x : ℚ) : round2 x ≤ x + 1/200 := by
  unfold round2
  have h := rhe_le (100 * x)
  rw [div_le_iff₀ (by norm_num : (0:ℚ) < 100)]
  linarith

theorem le_round2 (x : ℚ) : x - 1/200 ≤ round2 x := by
  unfold round2
  have h := le_rhe (100 * x)
  rw [le_div_iff₀ (by norm_num : (0:ℚ) < 100)]
  linarith

theorem round2_nonneg {x : ℚ} (hx : 0 ≤ x) : 0 ≤ round2 x := by
  unfold round2
  have h := le_rhe (100 * x)
  have h3 : (0 : ℤ) ≤ rhe (100 * x) := by
    by_contra hneg
    push_neg at hneg
    have h4 : rhe (100 * x) ≤ -1 := by omega
    have h5 : ((rhe (100 * x) : ℚ)) ≤ -1 := by exact_mod_cast h4
    nlinarith
  have h6 : (0 : ℚ) ≤ (rhe (100 * x) : ℚ) := by exact_mod_cast h3
  positivity

theorem round2_le_of_lt {x : ℚ} {n : ℤ} (hb : x < (n : ℚ) / 100) :
    round2 x ≤ (n : ℚ) / 100 := by
  unfold round2
  have h := rhe_le (100 * x)
  have hx : 100 * x < (n : ℚ) := by
    rw [lt_div_iff₀ (by norm_num : (0:ℚ) < 100)] at hb
    linarith
  have hlt : (rhe (100 * x) : ℚ) < (n : ℚ) + 1 := by linarith
  have hle : rhe (100 * x) ≤ n := by
    have h2 : rhe (100 * x) < n + 1 := by exact_mod_cast hlt
    omega
  have h3 : (rhe (100 * x) : ℚ) ≤ (n : ℚ) := by exact_mod_cast hle
  linarith

/-- A rational is a two-decimal value when it is an integer number of
hundredths. -/
def isTwoDecimal (x : ℚ) : Prop := ∃ n : ℤ, x = (n : ℚ) / 100

theorem round2_isTwoDecimal (x : ℚ) : isTwoDecimal (round2 x) :=
  ⟨rhe (100 * x), rfl⟩

/-! ## IndicatorCalculator (`server.py` lines 163–206) -/

/-- Model of `np.diff`: successive differences of a list. -/
def diffs : List ℚ → List ℚ
  | [] => []
  | [_] => []
  | a :: b :: t => (b - a) :: diffs (b :: t)

/-- One step of Wilder's exponential smoothing:
`avg = (avg*(period-1) + value)/period`. -/
def wilderStep (period : ℕ) (avg value : ℚ) : ℚ :=
  (avg * ((period : ℚ) - 1) + value) / (period : ℚ)

/-- Model of `IndicatorCalculator.calculate_rsi` (`server.py` 166–186).
Series shorter than `period+1` returns the neutral 50.0; otherwise Wilder's
smoothed RSI seeded with the simple mean of the first `period` gains/losses,
returning 100.0 when the smoothed average loss is 0. -/
def calculate_rsi (prices : List ℚ) (period : ℕ) : ℚ :=
  if prices.length < period + 1 then 50
  else
    let deltas := diffs prices
    let gains := deltas.map (fun d => max d 0)
    let losses := deltas.map (fun d => max (-d) 0)
    let avgGain0 := (gains.take period).sum / (period : ℚ)
    let avgLoss0 := (losses.take period).sum / (period : ℚ)
    let avgGain := (gains.drop period).foldl (wilderStep period) avgGain0
    let avgLoss := (losses.drop period).foldl (wilderStep period) avgLoss0
    if avgLoss = 0 then 100
    else
      let rs := avgGain / avgLoss
      round2 (100 - 100 / (1 + rs))

/-- Model of `IndicatorCalculator.calculate_vwap` (`server.py` 188–194).
Mismatched or empty series return `some 0`; a zero volume sum makes the
Python division raise `ZeroDivisionError`, modelled as `none`. -/
def calculate_vwap (prices volumes : List ℚ) : Option ℚ :=
  if prices.length ≠ volumes.length ∨ prices.length = 0 then some 0
  else
    let pv := (prices.zip volumes).map (fun x => x.1 * x.2)
    if volumes.sum = 0 then none
    else some (round2 (pv.sum / volumes.sum))

/-- Unrounded CPR pivot `(high+low+close)/3`. -/
def cprPivotRaw (high low close : ℚ) : ℚ := (high + low + close) / 3

/-- Unrounded CPR bottom-central band `(high+low)/2`. -/
def cprBcRaw (high low : ℚ) : ℚ := (high + low) / 2

/-- Unrounded CPR top-central band `(pivot - bc) + pivot`. -/
def cprTcRaw (high low close : ℚ) : ℚ :=
  (cprPivotRaw high low close - cprBcRaw high low) + cprPivotRaw high low close

structure Cpr where
  pivot : ℚ
  bc : ℚ
  tc : ℚ
  deriving Repr, DecidableEq

/-- Model of `IndicatorCalculator.calculate_cpr` (`server.py` 196–206): the three
bands, each rounded to 2 decimals. -/
def calculate_cpr (high low close : ℚ) : Cpr :=
  { pivot := round2 (cprPivotRaw high low close)
  , bc := round2 (cprBcRaw high low)
  , tc := round2 (cprTcRaw high low close) }

/-! ## TradingEngine (`server.py` 303–339) -/

structure Indicators where
  rsi : ℚ
  vwap : ℚ
  ltp : ℚ
  tc : ℚ
  bc : ℚ
  deriving Repr, DecidableEq

structure Signal where
  signal : String
  entry_price : ℚ
  target : ℚ
  stop_loss : ℚ
  notes : String
  deriving Repr, DecidableEq

/-- Render `n.natAbs` scaled by 100 as a fixed two-decimal digit string. -/
def fmtTwoDigits (m : ℕ) : String :=
  toString (m / 100) ++ "." ++ (if m % 100 < 10 then "0" else "") ++ toString (m % 100)

/-- Python's `f"{x:.2f}"`: fixed-point, two decimals, ties to even. -/
def fmtFix2 (x : ℚ) : String :=
  (if x < 0 then "-" else "") ++ fmtTwoDigits (rhe (100 * |x|)).natAbs

/-- Model of `TradingEngine.generate_signal` (`server.py` 304–339); `price` in the
source is the snapshot's `ltp`. -/
def generate_signal (ind : Indicators) : Signal :=
  if ind.rsi < 30 ∧ ind.ltp > ind.vwap ∧ ind.ltp > ind.tc then
    { signal := "BUY"
    , entry_price := ind.ltp
    , target := round2 (ind.ltp * (101/100))
    , stop_loss := round2 (ind.ltp * (995/1000))
    , notes := "RSI oversold (" ++ fmtFix2 ind.rsi ++ "), price above VWAP and TC" }
  else if ind.rsi > 70 ∧ ind.ltp < ind.vwap ∧ ind.ltp < ind.bc then
    { signal := "SELL"
    , entry_price := ind.ltp
    , target := round2 (ind.ltp * (99/100))
    , stop_loss := round2 (ind.ltp * (1005/1000))
    , notes := "RSI overbought (" ++ fmtFix2 ind.rsi ++ "), price below VWAP and BC" }
  else
    { signal := "HOLD"
    , entry_price := ind.ltp
    , target := ind.ltp
    , stop_loss := ind.ltp
    , notes := "No clear signal" }

/-! ## Watchlist operations (`server.py` 290–365) -/

structure WatchItem where
  symbol : String
  instrument_token : String
  deriving Repr, DecidableEq

/-- The `DEFAULT_WATCHLIST` constant (`server.py` 291–297). -/
def DEFAULT_WATCHLIST : List WatchItem :=
  [ ⟨"RELIANCE", "2885"⟩
  , ⟨"TCS", "11536"⟩
  , ⟨"INFY", "1594"⟩
  , ⟨"HDFCBANK", "1333"⟩
  , ⟨"ICICIBANK", "4963"⟩ ]

/-- One iteration of the `add` branch of `update_watchlist`
(`server.py` 355–361): append a dummy-token entry unless the symbol
is already present. -/
def addOne (wl : List WatchItem) (s : String) : List WatchItem :=
  if wl.any (fun it => it.symbol = s) then wl
  else wl ++ [⟨s, "dummy_" ++ s⟩]

/-- The `add` branch of `update_watchlist` over a whole request. -/
def addSymbols (wl : List WatchItem) (symbols : List String) : List WatchItem :=
  symbols.foldl addOne wl

/-- The `remove` branch of `update_watchlist` (`server.py` 362–363). -/
def removeSymbols (wl : List WatchItem) (symbols : List String) : List WatchItem :=
  wl.filter (fun it => ! symbols.contains it.symbol)

/-- The symbol-uniqueness invariant: no two entries share a symbol. -/
def uniqueSymbols (wl : List WatchItem) : Prop :=
  (wl.map WatchItem.symbol).Nodup

/-! ## Scan orchestrator (`server.py` 480–522)

The three external collaborators (market-data fetch, Google-Sheets trade
log, ntfy alert) are oracles.  A `none` fetch models the `/signal` call
raising; `logOk s = false` models `log_trade` raising `HTTPException`
after `sheets_logger.log_trade` fails; likewise `alertOk` for
`send_alert`.  Any of these exceptions is caught by the per-symbol
`try/except` which `continue`s to the next symbol. -/

structure Collaborators where
  fetch : String → Option Indicators
  logOk : String → Bool
  alertOk : String → Bool

/-- Observable collaborator invocations during a scan. -/
inductive Ev where
  | logAttempt (symbol : String)
  | alertAttempt (symbol : String)
  deriving Repr, DecidableEq

/-- One iteration of the `scan_all_symbols` loop body (`server.py`
485–520) for a single watchlist item: the appended result (if the
iteration reaches `results.append`) and the collaborator calls made. -/
def scanOne (c : Collaborators) (item : WatchItem) :
    Option (String × Signal) × List Ev :=
  match c.fetch item.symbol with
  | none => (none, [])
  | some ind =>
    let sig := generate_signal ind
    if sig.signal ≠ "HOLD" then
      if c.logOk item.symbol then
        if c.alertOk item.symbol then
          (some (item.symbol, sig), [Ev.logAttempt item.symbol, Ev.alertAttempt item.symbol])
        else
          (none, [Ev.logAttempt item.symbol, Ev.alertAttempt item.symbol])
      else
        (none, [Ev.logAttempt item.symbol])
    else
      (some (item.symbol, sig), [])

/-- Model of `scan_all_symbols` (`server.py` 480–522): iterate the watchlist,
accumulating appended results and collaborator calls. -/
def scan_all_symbols (c : Collaborators) :
    List WatchItem → List (String × Signal) × List Ev
  | [] => ([], [])
  | item :: rest =>
    let r := scanOne c item
    let rs := scan_all_symbols c rest
    (r.1.toList ++ rs.1, r.2 ++ rs.2)

/-- An item faults during the scan when its data fetch fails, or its
verdict is actionable and the trade log or the alert raises. -/
def faults (c : Collaborators) (item : WatchItem) : Bool :=
  match c.fetch item.symbol with
  | none => true
  | some ind =>
    if (generate_signal ind).signal = "HOLD" then false
    else !(c.logOk item.symbol && c.alertOk item.symbol)

/-! ## Reference decision function (from the specification's words) -/

/-- The spec's reference decision table: verdict, target, stop-loss.
This follows the specification's wording, to be compared with
`generate_signal` (which is translated from the code). -/
def refDecide (ind : Indicators) : String × ℚ × ℚ :=
  if ind.rsi < 30 ∧ ind.ltp > ind.vwap ∧ ind.ltp > ind.tc then
    ("BUY", round2 (ind.ltp * (101/100)), round2 (ind.ltp * (995/1000)))
  else if ind.rsi > 70 ∧ ind.ltp < ind.vwap ∧ ind.ltp < ind.bc then
    ("SELL", round2 (ind.ltp * (99/100)), round2 (ind.ltp * (1005/1000)))
  else
    ("HOLD", ind.ltp, ind.ltp)

/-! ## Claim theorems -/

/-- C1: `generate_signal` equals the reference decision function on
verdict, target and stop-loss for every snapshot — BUY when
`rsi < 30 ∧ price > vwap ∧ price > tc` with `target = round2(price·1.01)`
and `stopLoss = round2(price·0.995)`, else SELL when
`rsi > 70 ∧ price < vwap ∧ price < bc` with the symmetric levels, else
HOLD with `target = stopLoss = price` and notes `"No clear signal"`;
branches are tried in this order and the first match wins. -/
theorem generate_signal_matches_reference (ind : Indicators) :
    ((generate_signal ind).signal, (generate_signal ind).target,
      (generate_signal ind).stop_loss) = refDecide ind ∧
    ((refDecide ind).1 = "HOLD" → (generate_signal ind).notes = "No clear signal") := by
  unfold generate_signal refDecide
  by_cases hb : ind.rsi < 30 ∧ ind.ltp > ind.vwap ∧ ind.ltp > ind.tc
  · rw [if_pos hb, if_pos hb]
    exact ⟨rfl, fun h => absurd h (by decide : ("BUY" : String) ≠ "HOLD")⟩
  · rw [if_neg hb, if_neg hb]
    by_cases hs : ind.rsi > 70 ∧ ind.ltp < ind.vwap ∧ ind.ltp < ind.bc
    · rw [if_pos hs, if_pos hs]
      exact ⟨rfl, fun h => absurd h (by decide : ("SELL" : String) ≠ "HOLD")⟩
    · rw [if_neg hs, if_neg hs]
      exact ⟨rfl, fun _ => rfl⟩

/-- Witness for C1 at a concrete HOLD snapshot. -/
theorem generate_signal_matches_reference_witness :
    ((generate_signal ⟨50, 0, 1, 0, 0⟩).signal,
      (generate_signal ⟨50, 0, 1, 0, 0⟩).target,
      (generate_signal ⟨50, 0, 1, 0, 0⟩).stop_loss) = refDecide ⟨50, 0, 1, 0, 0⟩ ∧
    ((refDecide ⟨50, 0, 1, 0, 0⟩).1 = "HOLD" →
      (generate_signal ⟨50, 0, 1, 0, 0⟩).notes = "No clear signal") :=
  generate_signal_matches_reference ⟨50, 0, 1, 0, 0⟩

/-- C8 counterexample: with a HOLD snapshot whose price `1/8` has three
decimal places, the returned target is `1/8` itself, which is not a
two-decimal value — so not every monetary output is rounded to 2
decimals. -/
theorem hold_target_not_two_decimal :
    ¬ isTwoDecimal ((generate_signal ⟨50, 0, 1/8, 0, 0⟩).target) := by
  have hg : (generate_signal ⟨50, 0, 1/8, 0, 0⟩).target = 1/8 := by
    unfold generate_signal
    rw [if_neg (by norm_num), if_neg (by norm_num)]
  rw [hg]
  rintro ⟨n, hn⟩
  have h1 : (100 : ℚ) = 8 * (n : ℚ) := by
    field_simp at hn
    linarith
  have h2 : (100 : ℤ) = 8 * n := by exact_mod_cast h1
  omega

/-- C8 (amended): `target` and `stop_loss` are rounded to 2 decimals for
BUY and SELL verdicts; `entry_price` always equals the input price
unrounded, and in the HOLD branch `target = stopLoss =` the input price
unrounded. -/
theorem generate_signal_rounding (ind : Indicators) :
    (generate_signal ind).entry_price = ind.ltp ∧
    ((generate_signal ind).signal ≠ "HOLD" →
      isTwoDecimal ((generate_signal ind).target) ∧
      isTwoDecimal ((generate_signal ind).stop_loss)) ∧
    ((generate_signal ind).signal = "HOLD" →
      (generate_signal ind).target = ind.ltp ∧
      (generate_signal ind).stop_loss = ind.ltp) := by
  unfold generate_signal
  by_cases hb : ind.rsi < 30 ∧ ind.ltp > ind.vwap ∧ ind.ltp > ind.tc
  · rw [if_pos hb]
    exact ⟨rfl, fun _ => ⟨round2_isTwoDecimal _, round2_isTwoDecimal _⟩,
      fun h => absurd h (by decide : ("BUY" : String) ≠ "HOLD")⟩
  · rw [if_neg hb]
    by_cases hs : ind.rsi > 70 ∧ ind.ltp < ind.vwap ∧ ind.ltp < ind.bc
    · rw [if_pos hs]
      exact ⟨rfl, fun _ => ⟨round2_isTwoDecimal _, round2_isTwoDecimal _⟩,
        fun h => absurd h (by decide : ("SELL" : String) ≠ "HOLD")⟩
    · rw [if_neg hs]
      exact ⟨rfl, fun h => absurd rfl h, fun _ => ⟨rfl, rfl⟩⟩

/-- Witness for the amended C8 at a concrete BUY snapshot. -/
theorem generate_signal_rounding_witness :
    isTwoDecimal ((generate_signal ⟨25, 100, 110, 105, 95⟩).target) ∧
    isTwoDecimal ((generate_signal ⟨25, 100, 110, 105, 95⟩).stop_loss) :=
  (generate_signal_rounding ⟨25, 100, 110, 105, 95⟩).2.1 (by
    unfold generate_signal
    rw [if_pos (by norm_num)]
    decide)

/-- C10: for any snapshot with last traded price at least 1, a BUY
verdict has `stopLoss ≤ entry_price ≤ target` and a SELL verdict has
`target ≤ entry_price ≤ stopLoss`. -/
theorem generate_signal_level_order (ind : Indicators) (hp : 1 ≤ ind.ltp) :
    ((generate_signal ind).signal = "BUY" →
      (generate_signal ind).stop_loss ≤ (generate_signal ind).entry_price ∧
      (generate_signal ind).entry_price ≤ (generate_signal ind).target) ∧
    ((generate_signal ind).signal = "SELL" →
      (generate_signal ind).target ≤ (generate_signal ind).entry_price ∧
      (generate_signal ind).entry_price ≤ (generate_signal ind).stop_loss) := by
  unfold generate_signal
  by_cases hb : ind.rsi < 30 ∧ ind.ltp > ind.vwap ∧ ind.ltp > ind.tc
  · rw [if_pos hb]
    refine ⟨fun _ => ⟨?_, ?_⟩, fun h => absurd h (by decide : ("BUY" : String) ≠ "SELL")⟩
    · have h1 := round2_le (ind.ltp * (995/1000))
      linarith
    · have h2 := le_round2 (ind.ltp * (101/100))
      linarith
  · rw [if_neg hb]
    by_cases hs : ind.rsi > 70 ∧ ind.ltp < ind.vwap ∧ ind.ltp < ind.bc
    · rw [if_pos hs]
      refine ⟨fun h => absurd h (by decide : ("SELL" : String) ≠ "BUY"), fun _ => ⟨?_, ?_⟩⟩
      · have h1 := round2_le (ind.ltp * (99/100))
        linarith
      · have h2 := le_round2 (ind.ltp * (1005/1000))
        linarith
    · rw [if_neg hs]
      exact ⟨fun h => absurd h (by decide : ("HOLD" : String) ≠ "BUY"),
        fun h => absurd h (by decide : ("HOLD" : String) ≠ "SELL")⟩

/-- Witness for C10 at a concrete BUY snapshot with price 110. -/
theorem generate_signal_level_order_witness :
    ((generate_signal ⟨25, 100, 110, 105, 95⟩).signal = "BUY" →
      (generate_signal ⟨25, 100, 110, 105, 95⟩).stop_loss ≤
        (generate_signal ⟨25, 100, 110, 105, 95⟩).entry_price ∧
      (generate_signal ⟨25, 100, 110, 105, 95⟩).entry_price ≤
        (generate_signal ⟨25, 100, 110, 105, 95⟩).target) ∧
    ((generate_signal ⟨25, 100, 110, 105, 95⟩).signal = "SELL" →
      (generate_signal ⟨25, 100, 110, 105, 95⟩).target ≤
        (generate_signal ⟨25, 100, 110, 105, 95⟩).entry_price ∧
      (generate_signal ⟨25, 100, 110, 105, 95⟩).entry_price ≤
        (generate_signal ⟨25, 100, 110, 105, 95⟩).stop_loss) :=
  generate_signal_level_order ⟨25, 100, 110, 105, 95⟩ (by norm_num)

/-! ### RSI range and extremes -/

theorem wilderStep_nonneg {period : ℕ} (hp : 1 ≤ period) {a v : ℚ}
    (ha : 0 ≤ a) (hv : 0 ≤ v) : 0 ≤ wilderStep period a v := by
  unfold wilderStep
  have hp1 : (1 : ℚ) ≤ (period : ℚ) := by exact_mod_cast hp
  have hnum : 0 ≤ a * ((period : ℚ) - 1) + v := by nlinarith
  positivity

theorem foldl_wilder_nonneg {period : ℕ} (hp : 1 ≤ period) (l : List ℚ)
    (hl : ∀ x ∈ l, 0 ≤ x) {init : ℚ} (hi : 0 ≤ init) :
    0 ≤ l.foldl (wilderStep period) init := by
  induction l generalizing init with
  | nil => exact hi
  | cons x xs ih =>
    exact ih (fun y hy => hl y (List.mem_cons_of_mem _ hy))
      (wilderStep_nonneg hp hi (hl x (List.mem_cons_self _ _)))

theorem foldl_wilder_zero (period : ℕ) (l : List ℚ)
    (hl : ∀ x ∈ l, x = 0) : l.foldl (wilderStep period) 0 = 0 := by
  induction l with
  | nil => rfl
  | cons x xs ih =>
    have hx : x = 0 := hl x (List.mem_cons_self _ _)
    have hs : wilderStep period 0 x = 0 := by
      rw [hx]
      unfold wilderStep
      simp
    rw [List.foldl_cons, hs]
    exact ih (fun y hy => hl y (List.mem_cons_of_mem _ hy))

theorem gains_nonneg (deltas : List ℚ) :
    ∀ x ∈ deltas.map (fun d => max d 0), 0 ≤ x := by
  intro x hx
  rcases List.mem_map.1 hx with ⟨d, _, rfl⟩
  exact le_max_right d 0

theorem losses_nonneg (deltas : List ℚ) :
    ∀ x ∈ deltas.map (fun d => max (-d) 0), 0 ≤ x := by
  intro x hx
  rcases List.mem_map.1 hx with ⟨d, _, rfl⟩
  exact le_max_right (-d) 0

theorem sum_div_nonneg {l : List ℚ} (hl : ∀ x ∈ l, 0 ≤ x) (p : ℕ) :
    0 ≤ l.sum / (p : ℚ) := by
  have hs : 0 ≤ l.sum := List.sum_nonneg hl
  positivity

/-- C4: `calculate_rsi` stays in `[0, 100]` for every price series and
every (positive) period, and returns exactly 50.0 whenever the series is
shorter than `period + 1`. -/
theorem calculate_rsi_range (prices : List ℚ) (period : ℕ) (hp : 1 ≤ period) :
    (0 ≤ calculate_rsi prices period ∧ calculate_rsi prices period ≤ 100) ∧
    (prices.length < period + 1 → calculate_rsi prices period = 50) := by
  unfold calculate_rsi
  by_cases hlen : prices.length < period + 1
  · rw [if_pos hlen]
    exact ⟨⟨by norm_num, by norm_num⟩, fun _ => rfl⟩
  · rw [if_neg hlen]
    refine ⟨?_, fun h => absurd h hlen⟩
    set deltas := diffs prices with hdeltas
    set gains := deltas.map (fun d => max d 0) with hgains
    set losses := deltas.map (fun d => max (-d) 0) with hlosses
    have hg0 : 0 ≤ (gains.take period).sum / (period : ℚ) :=
      sum_div_nonneg (fun x hx => gains_nonneg deltas x (List.mem_of_mem_take hx)) period
    have hl0 : 0 ≤ (losses.take period).sum / (period : ℚ) :=
      sum_div_nonneg (fun x hx => losses_nonneg deltas x (List.mem_of_mem_take hx)) period
    have hG : 0 ≤ (gains.drop period).foldl (wilderStep period)
        ((gains.take period).sum / (period : ℚ)) :=
      foldl_wilder_nonneg hp _
        (fun x hx => gains_nonneg deltas x (List.mem_of_mem_drop hx)) hg0
    have hL : 0 ≤ (losses.drop period).foldl (wilderStep period)
        ((losses.take period).sum / (period : ℚ)) :=
      foldl_wilder_nonneg hp _
        (fun x hx => losses_nonneg deltas x (List.mem_of_mem_drop hx)) hl0
    set aG := (gains.drop period).foldl (wilderStep period)
      ((gains.take period).sum / (period : ℚ)) with haG
    set aL := (losses.drop period).foldl (wilderStep period)
      ((losses.take period).sum / (period : ℚ)) with haL
    by_cases hz : aL = 0
    · rw [if_pos hz]
      exact ⟨by norm_num, by norm_num⟩
    · rw [if_neg hz]
      have hLpos : 0 < aL := lt_of_le_of_ne hL (Ne.symm hz)
      have hrs : 0 ≤ aG / aL := div_nonneg hG hL
      have hden : (0 : ℚ) < 1 + aG / aL := by linarith
      have hfrac_pos : 0 < 100 / (1 + aG / aL) := by positivity
      have hfrac_le : 100 / (1 + aG / aL) ≤ 100 := by
        rw [div_le_iff₀ hden]
        nlinarith
      constructor
      · exact round2_nonneg (by linarith)
      · have hlt : 100 - 100 / (1 + aG / aL) < ((10000 : ℤ) : ℚ) / 100 := by
          push_cast
          norm_num
          linarith
        have := round2_le_of_lt hlt
        calc round2 (100 - 100 / (1 + aG / aL)) ≤ ((10000 : ℤ) : ℚ) / 100 := this
          _ = 100 := by norm_num

/-- Witness for C4: a two-element series with the default period 14 is
shorter than 15, so RSI is 50, which lies in `[0, 100]`. -/
theorem calculate_rsi_range_witness :
    (0 ≤ calculate_rsi [1, 2] 14 ∧ calculate_rsi [1, 2] 14 ≤ 100) ∧
    (([1, 2] : List ℚ).length < 14 + 1 → calculate_rsi [1, 2] 14 = 50) :=
  calculate_rsi_range [1, 2] 14 (by norm_num)

theorem diffs_pos : ∀ (l : List ℚ), l.Chain' (· < ·) → ∀ d ∈ diffs l, 0 < d
  | [], _, d, hd => by simp [diffs] at hd
  | [_], _, d, hd => by simp [diffs] at hd
  | a :: b :: t, hc, d, hd => by
    simp only [diffs] at hd
    rcases List.mem_cons.1 hd with rfl | hmem
    · have hab : a < b := (List.chain'_cons.1 hc).1
      linarith
    · exact diffs_pos (b :: t) (List.chain'_cons.1 hc).2 d hmem

/-- C7: on a strictly monotonically increasing price series of length at
least `period + 1`, every delta is a gain, the smoothed average loss
stays 0, and `calculate_rsi` returns exactly 100.0. -/
theorem calculate_rsi_strictly_increasing (prices : List ℚ) (period : ℕ)
    (_hp : 1 ≤ period) (hmono : prices.Chain' (· < ·))
    (hlen : period + 1 ≤ prices.length) :
    calculate_rsi prices period = 100 := by
  unfold calculate_rsi
  rw [if_neg (by omega : ¬ prices.length < period + 1)]
  have hzero : ∀ x ∈ (diffs prices).map (fun d => max (-d) 0), x = 0 := by
    intro x hx
    rcases List.mem_map.1 hx with ⟨d, hd, rfl⟩
    have hdpos := diffs_pos prices hmono d hd
    have : -d ≤ 0 := by linarith
    simp [max_eq_right this]
  have hsum : (((diffs prices).map (fun d => max (-d) 0)).take period).sum = 0 :=
    List.sum_eq_zero (fun x hx => hzero x (List.mem_of_mem_take hx))
  have hfold : (((diffs prices).map (fun d => max (-d) 0)).drop period).foldl
      (wilderStep period)
      ((((diffs prices).map (fun d => max (-d) 0)).take period).sum / (period : ℚ)) = 0 := by
    rw [hsum, zero_div]
    exact foldl_wilder_zero period _ (fun x hx => hzero x (List.mem_of_mem_drop hx))
  rw [if_pos hfold]

/-- Witness for C7: the strictly increasing series `[1, 2, 3]` with
period 2 has RSI exactly 100. -/
theorem calculate_rsi_strictly_increasing_witness :
    calculate_rsi [1, 2, 3] 2 = 100 :=
  calculate_rsi_strictly_increasing [1, 2, 3] 2 (by norm_num)
    (by norm_num [List.chain'_cons]) (by norm_num)

/-! ### VWAP -/

/-- C5 counterexample: a matched, non-empty input with total volume 0
makes the division raise `ZeroDivisionError` (modelled `none`) — the
function does not "return a value rather than raising" for every input. -/
theorem calculate_vwap_raises_on_zero_volume :
    calculate_vwap [1] [0] = none := by
  unfold calculate_vwap
  norm_num

/-- C5 (amended): `calculate_vwap` returns 0.0 on mismatched or empty
series, and otherwise `Σ(price·volume)/Σ(volume)` rounded to 2 decimals
provided the volumes sum is non-zero; when the matched, non-empty
volumes sum to 0 it raises `ZeroDivisionError` instead of returning. -/
theorem calculate_vwap_spec (prices volumes : List ℚ) :
    (prices.length ≠ volumes.length ∨ prices.length = 0 →
      calculate_vwap prices volumes = some 0) ∧
    (prices.length = volumes.length → prices.length ≠ 0 → volumes.sum ≠ 0 →
      calculate_vwap prices volumes =
        some (round2 (((prices.zip volumes).map (fun x => x.1 * x.2)).sum / volumes.sum))) ∧
    (prices.length = volumes.length → prices.length ≠ 0 → volumes.sum = 0 →
      calculate_vwap prices volumes = none) := by
  unfold calculate_vwap
  refine ⟨fun h => by rw [if_pos h], fun h1 h2 h3 => ?_, fun h1 h2 h3 => ?_⟩
  · rw [if_neg (by tauto), if_neg h3]
  · rw [if_neg (by tauto), if_pos h3]

/-- Witness for the amended C5: one matched pair with non-zero volume. -/
theorem calculate_vwap_spec_witness :
    calculate_vwap [2] [3] =
      some (round2 (((([2] : List ℚ).zip ([3] : List ℚ)).map
        (fun x => x.1 * x.2)).sum / ([3] : List ℚ).sum)) :=
  (calculate_vwap_spec [2] [3]).2.1 (by norm_num) (by norm_num) (by norm_num)

/-! ### CPR -/

/-- C6 counterexample: at `high = 0, low = 0, close = 1` the rounded
bands are `pivot = 0.33`, `bc = 0`, `tc = 0.67`, and
`tc − pivot = 0.34 ≠ 0.33 = pivot − bc`: the returned (rounded) values
do not satisfy the symmetry identity. -/
theorem calculate_cpr_rounded_asymmetry :
    (calculate_cpr 0 0 1).tc - (calculate_cpr 0 0 1).pivot ≠
      (calculate_cpr 0 0 1).pivot - (calculate_cpr 0 0 1).bc := by
  have hpivot : (calculate_cpr 0 0 1).pivot = 33/100 := by
    show round2 (cprPivotRaw 0 0 1) = 33/100
    norm_num [cprPivotRaw, round2, rhe]
  have hbc : (calculate_cpr 0 0 1).bc = 0 := by
    show round2 (cprBcRaw 0 0) = 0
    norm_num [cprBcRaw, round2, rhe]
  have htc : (calculate_cpr 0 0 1).tc = 67/100 := by
    show round2 (cprTcRaw 0 0 1) = 67/100
    norm_num [cprTcRaw, cprPivotRaw, cprBcRaw, round2, rhe]
  rw [hpivot, hbc, htc]
  norm_num

/-- C6 (amended): the unrounded CPR bands satisfy the mirror identity
`tc − pivot = pivot − bc` for all finite high/low/close; for the rounded
values returned by `calculate_cpr` the two sides agree only up to the
rounding error, which is at most 1/50. -/
theorem calculate_cpr_symmetry (high low close : ℚ) :
    cprTcRaw high low close - cprPivotRaw high low close =
      cprPivotRaw high low close - cprBcRaw high low ∧
    |((calculate_cpr high low close).tc - (calculate_cpr high low close).pivot) -
      ((calculate_cpr high low close).pivot - (calculate_cpr high low close).bc)| ≤ 1/50 := by
  constructor
  · unfold cprTcRaw cprPivotRaw cprBcRaw
    ring
  · have hpv : (calculate_cpr high low close).pivot = round2 (cprPivotRaw high low close) := rfl
    have hbc : (calculate_cpr high low close).bc = round2 (cprBcRaw high low) := rfl
    have htc : (calculate_cpr high low close).tc = round2 (cprTcRaw high low close) := rfl
    rw [hpv, hbc, htc]
    have h1 := round2_le (cprTcRaw high low close)
    have h2 := le_round2 (cprTcRaw high low close)
    have h3 := round2_le (cprPivotRaw high low close)
    have h4 := le_round2 (cprPivotRaw high low close)
    have h5 := round2_le (cprBcRaw high low)
    have h6 := le_round2 (cprBcRaw high low)
    have hid : cprTcRaw high low close - cprPivotRaw high low close =
        cprPivotRaw high low close - cprBcRaw high low := by
      unfold cprTcRaw cprPivotRaw cprBcRaw
      ring
    rw [abs_le]
    constructor <;> linarith

/-! ### Scan orchestration -/

/-- C2: the scan is a total function of the watchlist and the
collaborator oracles — no per-symbol fault aborts it — and its result
list is exactly the non-faulting watchlist entries, in watchlist
iteration order, each carrying the verdict computed from its fetched
snapshot. -/
theorem scan_isolates_faults (c : Collaborators) (wl : List WatchItem) :
    (scan_all_symbols c wl).1 =
      (wl.filter (fun it => ! faults c it)).filterMap
        (fun it => (c.fetch it.symbol).map (fun ind => (it.symbol, generate_signal ind))) := by
  induction wl with
  | nil => rfl
  | cons item rest ih =>
    rcases hfetch : c.fetch item.symbol with _ | ind
    · simp [scan_all_symbols, scanOne, faults, hfetch, ih]
    · by_cases hhold : (generate_signal ind).signal = "HOLD"
      · simp [scan_all_symbols, scanOne, faults, hfetch, hhold, ih]
      · cases hlog : c.logOk item.symbol
        · simp [scan_all_symbols, scanOne, faults, hfetch, hhold, hlog, ih]
        · cases halert : c.alertOk item.symbol
          · simp [scan_all_symbols, scanOne, faults, hfetch, hhold, hlog, halert, ih]
          · simp [scan_all_symbols, scanOne, faults, hfetch, hhold, hlog, halert, ih]

/-- A concrete oracle assignment: the market data for every symbol is a
BUY snapshot, the trade log always fails, alerts would succeed. -/
def collabLogFail : Collaborators :=
  { fetch := fun _ => some ⟨25, 100, 110, 105, 95⟩
  , logOk := fun _ => false
  , alertOk := fun _ => true }

/-- C3 counterexample: scanning symbol `"X"` whose verdict is BUY while
the trade-log collaborator fails, the log call is attempted but the
alert call is never attempted — the `HTTPException` from the log call
jumps to the loop's `except` before `send_alert`. -/
theorem scan_log_failure_skips_alert :
    (generate_signal ⟨25, 100, 110, 105, 95⟩).signal ≠ "HOLD" ∧
    Ev.logAttempt "X" ∈ (scan_all_symbols collabLogFail [⟨"X", "1"⟩]).2 ∧
    Ev.alertAttempt "X" ∉ (scan_all_symbols collabLogFail [⟨"X", "1"⟩]).2 := by
  have hsig : (generate_signal (⟨25, 100, 110, 105, 95⟩ : Indicators)).signal = "BUY" := by
    unfold generate_signal
    rw [if_pos (by norm_num)]
  have hscan : (scan_all_symbols collabLogFail [⟨"X", "1"⟩]).2 = [Ev.logAttempt "X"] := by
    simp [scan_all_symbols, scanOne, collabLogFail, hsig]
  refine ⟨by rw [hsig]; decide, ?_, ?_⟩
  · rw [hscan]
    simp
  · rw [hscan]
    simp

/-- C3 (amended): for a symbol whose fetch succeeds with a non-HOLD
verdict, the orchestrator attempts the trade log first and attempts the
alert exactly when the trade log succeeded; a trade-log failure drops
the symbol from the results; in every case the scan continues
structurally with the remaining symbols. -/
theorem scan_log_then_alert (c : Collaborators) (item : WatchItem) (ind : Indicators)
    (hfetch : c.fetch item.symbol = some ind)
    (hsig : (generate_signal ind).signal ≠ "HOLD") :
    (scanOne c item).2 = Ev.logAttempt item.symbol ::
      (if c.logOk item.symbol then [Ev.alertAttempt item.symbol] else []) ∧
    (c.logOk item.symbol = false → (scanOne c item).1 = none) ∧
    (∀ rest, scan_all_symbols c (item :: rest) =
      ((scanOne c item).1.toList ++ (scan_all_symbols c rest).1,
        (scanOne c item).2 ++ (scan_all_symbols c rest).2)) := by
  refine ⟨?_, ?_, fun rest => rfl⟩
  · unfold scanOne
    simp only [hfetch]
    rw [if_pos hsig]
    cases hlog : c.logOk item.symbol
    · simp
    · cases halert : c.alertOk item.symbol <;> simp
  · intro hlog
    unfold scanOne
    simp only [hfetch]
    rw [if_pos hsig, hlog]
    simp

/-- Witness for the amended C3 at the concrete failing-log oracle. -/
theorem scan_log_then_alert_witness :
    (scanOne collabLogFail ⟨"X", "1"⟩).2 = Ev.logAttempt "X" ::
      (if collabLogFail.logOk "X" then [Ev.alertAttempt "X"] else []) ∧
    (collabLogFail.logOk "X" = false → (scanOne collabLogFail ⟨"X", "1"⟩).1 = none) ∧
    (∀ rest, scan_all_symbols collabLogFail (⟨"X", "1"⟩ :: rest) =
      ((scanOne collabLogFail ⟨"X", "1"⟩).1.toList ++ (scan_all_symbols collabLogFail rest).1,
        (scanOne collabLogFail ⟨"X", "1"⟩).2 ++ (scan_all_symbols collabLogFail rest).2)) :=
  scan_log_then_alert collabLogFail ⟨"X", "1"⟩ ⟨25, 100, 110, 105, 95⟩ rfl
    (by
      unfold generate_signal
      rw [if_pos (by norm_num)]
      decide)

/-! ### Watchlist -/

theorem addOne_uniq {wl : List WatchItem} {s : String}
    (h : uniqueSymbols wl) : uniqueSymbols (addOne wl s) := by
  unfold addOne
  by_cases hs : wl.any (fun it => it.symbol = s) = true
  · rw [if_pos hs]
    exact h
  · rw [if_neg hs]
    unfold uniqueSymbols at *
    rw [List.map_append, List.nodup_append]
    refine ⟨h, List.nodup_singleton _, ?_⟩
    intro a ha hb
    simp only [List.map_cons, List.map_nil, List.mem_singleton] at hb
    rcases List.mem_map.1 ha with ⟨it, hit, rfl⟩
    exact hs (List.any_eq_true.2 ⟨it, hit, by simp [hb]⟩)

theorem addSymbols_uniq : ∀ (syms : List String) (wl : List WatchItem),
    uniqueSymbols wl → uniqueSymbols (addSymbols wl syms)
  | [], _, h => h
  | s :: rest, wl, h => addSymbols_uniq rest (addOne wl s) (addOne_uniq h)

theorem removeSymbols_uniq {wl : List WatchItem} {syms : List String}
    (h : uniqueSymbols wl) : uniqueSymbols (removeSymbols wl syms) :=
  List.Nodup.sublist (List.Sublist.map _ (List.filter_sublist wl)) h

/-- C9: the watchlist starts with pairwise-distinct symbols; every add
and every remove preserves that invariant; adding an already-present
symbol leaves the watchlist unchanged; and remove keeps exactly the
entries whose symbol is not in the given list. -/
theorem watchlist_unique_invariant :
    uniqueSymbols DEFAULT_WATCHLIST ∧
    (∀ wl syms, uniqueSymbols wl →
      uniqueSymbols (addSymbols wl syms) ∧ uniqueSymbols (removeSymbols wl syms)) ∧
    (∀ wl s, wl.any (fun it => it.symbol = s) = true → addSymbols wl [s] = wl) ∧
    (∀ wl syms it, it ∈ removeSymbols wl syms ↔
      it ∈ wl ∧ syms.contains it.symbol = false) := by
  refine ⟨by unfold uniqueSymbols; decide,
    fun wl syms h => ⟨addSymbols_uniq syms wl h, removeSymbols_uniq h⟩,
    fun wl s h => ?_, fun wl syms it => ?_⟩
  · show addOne wl s = wl
    unfold addOne
    rw [if_pos h]
  · unfold removeSymbols
    simp [List.mem_filter]

/-- Witness for C9: adding the already-present symbol `"TCS"` to the
default watchlist preserves uniqueness and changes nothing. -/
theorem watchlist_unique_invariant_witness :
    uniqueSymbols (addSymbols DEFAULT_WATCHLIST ["TCS"]) ∧
    addSymbols DEFAULT_WATCHLIST ["TCS"] = DEFAULT_WATCHLIST :=
  ⟨(watchlist_unique_invariant.2.1 DEFAULT_WATCHLIST ["TCS"]
      watchlist_unique_invariant.1).1,
    watchlist_unique_invariant.2.2.1 DEFAULT_WATCHLIST "TCS" (by decide)⟩

end Trading
